import Mathlib

/-!
Verification development for the gift-genius-autocheckout backend.

The repository holds two revisions of the same FastAPI service:
`src/app/main.py` (the richer revision, with a session-id format guard,
query-merging URL composition and a missing-URL 500 guard) and
`src/main.py` (a bare revision that concatenates redirect URLs and has
no URL guard).  The definitions below are shallow embeddings of those
handlers: pure Python expressions become Lean functions, the calls to
the Stripe SDK become explicit oracle arguments whose invocations are
recorded in a call list, and raised `HTTPException`s become the error
side of `Except`.
-/

set_option maxRecDepth 4000

/-! ### Character and string helpers -/

/-- The characters matched by the regex class `[A-Za-z0-9]`. -/
def isAlnumAscii (c : Char) : Bool :=
  (decide ('A' ≤ c) && decide (c ≤ 'Z')) ||
  (decide ('a' ≤ c) && decide (c ≤ 'z')) ||
  (decide ('0' ≤ c) && decide (c ≤ '9'))

/-- Line feed, written by code point to keep literals simple. -/
def newlineChar : Char := Char.ofNat 10

/-- Left brace, written by code point. -/
def lbrace : Char := Char.ofNat 123

/-- Right brace, written by code point. -/
def rbrace : Char := Char.ofNat 125

/-- `strPrefixOf p l` is true when the character list `p` starts `l`. -/
def strPrefixOf : List Char → List Char → Bool
  | [], _ => true
  | _ :: _, [] => false
  | c :: cs, d :: ds => decide (c = d) && strPrefixOf cs ds

/-- Substring containment, the Python `needle in haystack` test on strings. -/
def strContains (needle : List Char) : List Char → Bool
  | [] => strPrefixOf needle []
  | c :: rest => strPrefixOf needle (c :: rest) || strContains needle rest

lemma strPrefixOf_iff : ∀ (p l : List Char), strPrefixOf p l = true ↔ ∃ r, l = p ++ r
  | [], l => by simp [strPrefixOf]
  | _ :: _, [] => by simp [strPrefixOf]
  | c :: cs, d :: ds => by
    simp only [strPrefixOf, Bool.and_eq_true, decide_eq_true_eq, strPrefixOf_iff cs ds,
      List.cons_append, List.cons.injEq]
    constructor
    · rintro ⟨rfl, r, rfl⟩
      exact ⟨r, rfl, rfl⟩
    · rintro ⟨r, rfl, rfl⟩
      exact ⟨rfl, r, rfl⟩

lemma strPrefixOf_self_append (p r : List Char) : strPrefixOf p (p ++ r) = true :=
  (strPrefixOf_iff p (p ++ r)).mpr ⟨r, rfl⟩

lemma takeWhile_append_all {α : Type} {p : α → Bool} :
    ∀ (b t : List α), (∀ c ∈ b, p c = true) → (b ++ t).takeWhile p = b ++ t.takeWhile p
  | [], _, _ => rfl
  | c :: b, t, h => by
    have hc : p c = true := h c (by simp)
    simp only [List.cons_append, List.takeWhile_cons, hc, if_true]
    rw [takeWhile_append_all b t (fun x hx => h x (by simp [hx]))]

lemma dropWhile_append_all {α : Type} {p : α → Bool} :
    ∀ (b t : List α), (∀ c ∈ b, p c = true) → (b ++ t).dropWhile p = t.dropWhile p
  | [], _, _ => rfl
  | c :: b, t, h => by
    have hc : p c = true := h c (by simp)
    simp only [List.cons_append, List.dropWhile_cons, hc, if_true]
    exact dropWhile_append_all b t (fun x hx => h x (by simp [hx]))

lemma all_takeWhile {α : Type} {p : α → Bool} :
    ∀ (l : List α), ∀ c ∈ l.takeWhile p, p c = true
  | [] => by simp
  | a :: l => by
    by_cases ha : p a
    · simp only [List.takeWhile_cons, ha, if_true, List.mem_cons]
      rintro c (rfl | hc)
      · exact ha
      · exact all_takeWhile l c hc
    · simp [List.takeWhile_cons, ha]

/-! ### Session-ID Validator (src/app/main.py line 34)

`SESSION_ID_RE = re.compile(r"^cs_(test|live)_[A-Za-z0-9]\x7b24,\x7d$")` used
with `.match`.  Both alternatives of the prefix are eight characters long, so
matching consists of one of the two literal prefixes, a maximal run of
alphanumerics of length at least 24, and then the `$` anchor.  Python `$`
(without MULTILINE) matches at the end of the string or just before a single
trailing newline, which the embedding reproduces. -/

def sessionIdMatch (s : String) : Bool :=
  (strPrefixOf ("cs_test_".data) s.data || strPrefixOf ("cs_live_".data) s.data) &&
  (decide (24 ≤ ((s.data.drop 8).takeWhile isAlnumAscii).length) &&
    (decide ((s.data.drop 8).dropWhile isAlnumAscii = []) ||
     decide ((s.data.drop 8).dropWhile isAlnumAscii = [newlineChar])))

/-- Modelled from the spec: the acceptance set the spec states for the
Session-ID Validator, namely `cs_test_` or `cs_live_` followed by at least 24
ASCII alphanumeric characters and nothing else. -/
def specSessionIdForm (s : String) : Bool :=
  (strPrefixOf ("cs_test_".data) s.data || strPrefixOf ("cs_live_".data) s.data) &&
  (decide (24 ≤ (s.data.drop 8).length) && (s.data.drop 8).all isAlnumAscii)

example : sessionIdMatch "cs_test_aaaaaaaaaaaaaaaaaaaaaaaa" = true := by decide
example : sessionIdMatch "cs_live_A1b2C3d4E5f6G7h8I9j0K1l2" = true := by decide
example : sessionIdMatch "" = false := by decide
example : sessionIdMatch "cs_test_short" = false := by decide
example : sessionIdMatch "cs_prod_aaaaaaaaaaaaaaaaaaaaaaaa" = false := by decide

/-! ### URL Composer (src/app/main.py lines 50-57)

```
def add_params(url: str, **params) -> str:
    u = urlparse(url)
    q = dict(parse_qsl(u.query))
    for k, v in params.items():
        if v is not None:
            q[k] = v
    return urlunparse(u._replace(query=urlencode(q)))
```

A URL is modelled at the level of the six `urlparse` components; the query
component is modelled as its decoded list of name/value pairs, in order.
The percent-encoding layer is elided because `urlencode` and `parse_qsl`
round-trip at the decoded-pair level.  `parse_qsl` with its default
`keep_blank_values=False` drops every pair whose value is the empty string,
and a Python dict updates an existing key in place while a fresh key is
appended at the end; the embedding reproduces both behaviours. -/

structure PyUrl where
  scheme : String
  netloc : String
  path : String
  params : String
  query : List (String × String)
  fragment : String
deriving DecidableEq

/-- `parse_qsl(q)` with default arguments: blank-valued pairs are dropped. -/
def parse_qsl (q : List (String × String)) : List (String × String) :=
  q.filter (fun p => !(p.2 == ""))

/-- Assignment `q[k] = v` on an insertion-ordered dict: update the first
entry holding key `k` in place, otherwise append the new pair at the end. -/
def dictInsert : List (String × String) → String → String → List (String × String)
  | [], k, v => [(k, v)]
  | p :: d, k, v => if p.1 = k then (k, v) :: d else p :: dictInsert d k v

/-- `dict(l)` on a pair list: fold the pairs into an empty dict. -/
def pyDictAux : List (String × String) → List (String × String) → List (String × String)
  | acc, [] => acc
  | acc, (k, v) :: t => pyDictAux (dictInsert acc k v) t

def pyDict (l : List (String × String)) : List (String × String) :=
  pyDictAux [] l

/-- The `for k, v in params.items(): if v is not None: q[k] = v` loop.
A `none` value means the keyword argument was `None` and is skipped. -/
def applyParams : List (String × String) → List (String × Option String) → List (String × String)
  | q, [] => q
  | q, (_, none) :: ps => applyParams q ps
  | q, (k, some v) :: ps => applyParams (dictInsert q k v) ps

def add_params (u : PyUrl) (ps : List (String × Option String)) : PyUrl :=
  { u with query := applyParams (pyDict (parse_qsl u.query)) ps }

/-! dict and loop lemmas -/

lemma dictInsert_mem_self : ∀ (d : List (String × String)) (k v : String),
    (k, v) ∈ dictInsert d k v
  | [], _, _ => by simp [dictInsert]
  | p :: d, k, v => by
    by_cases h : p.1 = k
    · simp [dictInsert, h]
    · simpa [dictInsert, h] using Or.inr (dictInsert_mem_self d k v)

lemma dictInsert_mem_of_ne : ∀ {d : List (String × String)} {a b k v : String},
    (a, b) ∈ d → a ≠ k → (a, b) ∈ dictInsert d k v
  | [], _, _, _, _, h, _ => by simp at h
  | p :: d, a, b, k, v, h, hk => by
    by_cases hp : p.1 = k
    · rcases List.mem_cons.mp h with rfl | hmem
      · exact absurd hp hk
      · simp [dictInsert, hp, hmem]
    · rcases List.mem_cons.mp h with rfl | hmem
      · simp [dictInsert, hp]
      · simpa [dictInsert, hp] using Or.inr (dictInsert_mem_of_ne hmem hk)

lemma dictInsert_mem_elim : ∀ {d : List (String × String)} {k v : String}
    {p : String × String}, p ∈ dictInsert d k v → p ∈ d ∨ p = (k, v)
  | [], k, v, p, h => by simpa [dictInsert] using h
  | q :: d, k, v, p, h => by
    by_cases hq : q.1 = k
    · simp only [dictInsert, hq, if_true, List.mem_cons] at h
      rcases h with rfl | h
      · exact Or.inr rfl
      · exact Or.inl (List.mem_cons_of_mem _ h)
    · simp only [dictInsert, hq, if_false, List.mem_cons] at h
      rcases h with rfl | h
      · exact Or.inl (List.mem_cons_self _ _)
      · rcases dictInsert_mem_elim h with h | h
        · exact Or.inl (List.mem_cons_of_mem _ h)
        · exact Or.inr h

lemma dictInsert_keys_sub {d : List (String × String)} {k v a : String}
    (h : a ∈ (dictInsert d k v).map Prod.fst) : a ∈ d.map Prod.fst ∨ a = k := by
  rcases List.mem_map.mp h with ⟨p, hp, rfl⟩
  rcases dictInsert_mem_elim hp with h | rfl
  · exact Or.inl (List.mem_map_of_mem _ h)
  · exact Or.inr rfl

lemma dictInsert_keys_nodup : ∀ {d : List (String × String)} {k v : String},
    (d.map Prod.fst).Nodup → ((dictInsert d k v).map Prod.fst).Nodup
  | [], k, v, _ => by simp [dictInsert]
  | p :: d, k, v, h => by
    rw [List.map_cons, List.nodup_cons] at h
    obtain ⟨hp, hd⟩ := h
    by_cases hq : p.1 = k
    · subst hq
      rw [dictInsert, if_pos rfl, List.map_cons, List.nodup_cons]
      exact ⟨hp, hd⟩
    · rw [dictInsert, if_neg hq, List.map_cons, List.nodup_cons]
      refine ⟨fun hmem => ?_, dictInsert_keys_nodup hd⟩
      rcases dictInsert_keys_sub hmem with hmem | rfl
      · exact hp hmem
      · exact hq rfl

lemma dictInsert_eq_self : ∀ {d : List (String × String)} {k v : String},
    (d.map Prod.fst).Nodup → (k, v) ∈ d → dictInsert d k v = d
  | [], _, _, _, h => by simp at h
  | p :: d, k, v, hnd, h => by
    rw [List.map_cons, List.nodup_cons] at hnd
    obtain ⟨hp, hd⟩ := hnd
    by_cases hq : p.1 = k
    · rcases List.mem_cons.mp h with rfl | hmem
      · rw [dictInsert, if_pos hq]
      · exact absurd (hq ▸ List.mem_map_of_mem Prod.fst hmem) hp
    · rcases List.mem_cons.mp h with rfl | hmem
      · exact absurd rfl hq
      · rw [dictInsert, if_neg hq, dictInsert_eq_self hd hmem]

lemma dictInsert_append_not_mem : ∀ {d : List (String × String)} {k v : String},
    k ∉ d.map Prod.fst → dictInsert d k v = d ++ [(k, v)]
  | [], _, _, _ => rfl
  | p :: d, k, v, h => by
    rw [List.map_cons] at h
    have hq : p.1 ≠ k := fun hq => h (by simp [hq])
    rw [dictInsert, if_neg hq, List.cons_append,
      dictInsert_append_not_mem (fun hm => h (List.mem_cons_of_mem _ hm))]

lemma pyDictAux_eq : ∀ (l acc : List (String × String)),
    ((acc ++ l).map Prod.fst).Nodup → pyDictAux acc l = acc ++ l := by
  intro l
  induction l with
  | nil => intro acc _; simp [pyDictAux]
  | cons p t ih =>
    intro acc h
    obtain ⟨k, v⟩ := p
    rw [pyDictAux]
    have hk : k ∉ acc.map Prod.fst := by
      rw [List.map_append, List.nodup_append] at h
      intro hm
      exact h.2.2 hm (by simp)
    rw [dictInsert_append_not_mem hk, ih (acc ++ [(k, v)]) (by simpa using h)]
    simp

lemma pyDict_eq_self {l : List (String × String)}
    (h : (l.map Prod.fst).Nodup) : pyDict l = l := by
  rw [pyDict, pyDictAux_eq l [] (by simpa using h), List.nil_append]

lemma pyDictAux_mem : ∀ {l acc : List (String × String)} {p : String × String},
    p ∈ pyDictAux acc l → p ∈ acc ∨ p ∈ l
  | [], acc, p, h => Or.inl h
  | (k, v) :: t, acc, p, h => by
    rw [pyDictAux] at h
    rcases pyDictAux_mem h with h | h
    · rcases dictInsert_mem_elim h with h | rfl
      · exact Or.inl h
      · exact Or.inr (List.mem_cons_self _ _)
    · exact Or.inr (List.mem_cons_of_mem _ h)

lemma pyDict_mem {l : List (String × String)} {p : String × String}
    (h : p ∈ pyDict l) : p ∈ l := by
  rcases pyDictAux_mem h with h | h
  · simp at h
  · exact h

lemma pyDictAux_keys_nodup : ∀ (l acc : List (String × String)),
    (acc.map Prod.fst).Nodup → ((pyDictAux acc l).map Prod.fst).Nodup := by
  intro l
  induction l with
  | nil => intro acc h; exact h
  | cons p t ih =>
    intro acc h
    obtain ⟨k, v⟩ := p
    rw [pyDictAux]
    exact ih _ (dictInsert_keys_nodup h)

lemma pyDict_keys_nodup (l : List (String × String)) :
    ((pyDict l).map Prod.fst).Nodup :=
  pyDictAux_keys_nodup l [] (by simp)

lemma applyParams_mem_of_not_set {ps : List (String × Option String)} :
    ∀ {q : List (String × String)} {a b : String},
    (a, b) ∈ q → (∀ w, (a, some w) ∉ ps) → (a, b) ∈ applyParams q ps := by
  induction ps with
  | nil => intro q a b h _; exact h
  | cons e ps ih =>
    intro q a b h hs
    obtain ⟨k, ov⟩ := e
    cases ov with
    | none =>
      simp only [applyParams]
      exact ih h (fun w hw => hs w (List.mem_cons_of_mem _ hw))
    | some v =>
      simp only [applyParams]
      have hak : a ≠ k := by
        rintro rfl
        exact hs v (List.mem_cons_self _ _)
      exact ih (dictInsert_mem_of_ne h hak)
        (fun w hw => hs w (List.mem_cons_of_mem _ hw))

lemma applyParams_mem_self {ps : List (String × Option String)} :
    ∀ {q : List (String × String)} {k v : String},
    (ps.map Prod.fst).Nodup → (k, some v) ∈ ps → (k, v) ∈ applyParams q ps := by
  induction ps with
  | nil => intro q k v _ h; simp at h
  | cons e ps ih =>
    intro q k v hnd hm
    obtain ⟨a, ov⟩ := e
    rw [List.map_cons, List.nodup_cons] at hnd
    obtain ⟨ha, hps⟩ := hnd
    rcases List.mem_cons.mp hm with heq | hmem
    · injection heq with h1 h2
      subst h1
      subst h2
      simp only [applyParams]
      refine applyParams_mem_of_not_set (dictInsert_mem_self q k v) ?_
      intro w hw
      exact ha (by simpa using List.mem_map_of_mem Prod.fst hw)
    · cases ov with
      | none =>
        simp only [applyParams]
        exact ih hps hmem
      | some w =>
        simp only [applyParams]
        exact ih hps hmem

lemma applyParams_keys_nodup {ps : List (String × Option String)} :
    ∀ {q : List (String × String)},
    (q.map Prod.fst).Nodup → ((applyParams q ps).map Prod.fst).Nodup := by
  induction ps with
  | nil => intro q h; exact h
  | cons e ps ih =>
    intro q h
    obtain ⟨a, ov⟩ := e
    cases ov with
    | none =>
      simp only [applyParams]
      exact ih h
    | some v =>
      simp only [applyParams]
      exact ih (dictInsert_keys_nodup h)

lemma applyParams_mem_elim {ps : List (String × Option String)} :
    ∀ {q : List (String × String)} {p : String × String},
    p ∈ applyParams q ps → p ∈ q ∨ ∃ k v, p = (k, v) ∧ (k, some v) ∈ ps := by
  induction ps with
  | nil => intro q p h; exact Or.inl h
  | cons e ps ih =>
    intro q p h
    obtain ⟨a, ov⟩ := e
    cases ov with
    | none =>
      simp only [applyParams] at h
      rcases ih h with h | ⟨k, v, rfl, hm⟩
      · exact Or.inl h
      · exact Or.inr ⟨k, v, rfl, List.mem_cons_of_mem _ hm⟩
    | some w =>
      simp only [applyParams] at h
      rcases ih h with h | ⟨k, v, rfl, hm⟩
      · rcases dictInsert_mem_elim h with h | rfl
        · exact Or.inl h
        · exact Or.inr ⟨a, w, rfl, List.mem_cons_self _ _⟩
      · exact Or.inr ⟨k, v, rfl, List.mem_cons_of_mem _ hm⟩

lemma applyParams_eq_self {ps : List (String × Option String)} :
    ∀ {q : List (String × String)},
    (q.map Prod.fst).Nodup → (∀ k v, (k, some v) ∈ ps → (k, v) ∈ q) →
    applyParams q ps = q := by
  induction ps with
  | nil => intro q _ _; rfl
  | cons e ps ih =>
    intro q hnd h
    obtain ⟨a, ov⟩ := e
    cases ov with
    | none =>
      simp only [applyParams]
      exact ih hnd (fun k v hm => h k v (List.mem_cons_of_mem _ hm))
    | some w =>
      simp only [applyParams]
      rw [dictInsert_eq_self hnd (h a w (List.mem_cons_self _ _))]
      exact ih hnd (fun k v hm => h k v (List.mem_cons_of_mem _ hm))

lemma parse_qsl_mem {q : List (String × String)} {p : String × String}
    (h : p ∈ parse_qsl q) : p ∈ q ∧ p.2 ≠ "" := by
  rw [parse_qsl, List.mem_filter] at h
  exact ⟨h.1, by simpa using h.2⟩

lemma parse_qsl_mem_of {q : List (String × String)} {p : String × String}
    (h : p ∈ q) (hv : p.2 ≠ "") : p ∈ parse_qsl q := by
  rw [parse_qsl, List.mem_filter]
  exact ⟨h, by simpa using hv⟩

lemma parse_qsl_keys_nodup {q : List (String × String)}
    (h : (q.map Prod.fst).Nodup) : ((parse_qsl q).map Prod.fst).Nodup :=
  h.sublist (List.Sublist.map Prod.fst (List.filter_sublist q))

lemma parse_qsl_eq_self {q : List (String × String)}
    (h : ∀ p ∈ q, p.2 ≠ "") : parse_qsl q = q := by
  rw [parse_qsl, List.filter_eq_self]
  intro p hp
  simpa using h p hp

lemma add_params_query (u : PyUrl) (ps : List (String × Option String)) :
    (add_params u ps).query = applyParams (pyDict (parse_qsl u.query)) ps := rfl

lemma add_params_keys_nodup (u : PyUrl) (ps : List (String × Option String)) :
    ((add_params u ps).query.map Prod.fst).Nodup :=
  applyParams_keys_nodup (pyDict_keys_nodup _)

lemma add_params_mem_set {u : PyUrl} {ps : List (String × Option String)}
    {k v : String} (hps : (ps.map Prod.fst).Nodup) (h : (k, some v) ∈ ps) :
    (k, v) ∈ (add_params u ps).query :=
  applyParams_mem_self hps h

lemma add_params_mem_preserved {u : PyUrl} {ps : List (String × Option String)}
    {k v : String} (hu : (u.query.map Prod.fst).Nodup) (hv : v ≠ "")
    (hmem : (k, v) ∈ u.query) (hset : ∀ w, (k, some w) ∉ ps) :
    (k, v) ∈ (add_params u ps).query := by
  rw [add_params_query, pyDict_eq_self (parse_qsl_keys_nodup hu)]
  exact applyParams_mem_of_not_set (parse_qsl_mem_of hmem hv) hset

/-! ### Stripe data model

The external Stripe SDK is modelled by oracle functions passed to each
handler.  Every invocation of an oracle is recorded in the second component
of the handler result, so "performs zero provider calls" is the statement
that this list is empty. -/

structure LineItem where
  currency : String
  name : String
  unit_amount : Int
  quantity : Int
deriving DecidableEq

/-- The arguments of `stripe.checkout.Session.create` that the handlers fill
in.  The redirect-URL type is a parameter because the `src/app/main.py`
revision passes composed `PyUrl`s while `src/main.py` passes raw strings. -/
structure SessionCreateParams (α : Type) where
  line_items : List LineItem
  success_url : α
  cancel_url : α
  locale : Option String
deriving DecidableEq

structure StripeSession where
  id : String
  url : Option String
  livemode : Bool
deriving DecidableEq

inductive StripeCall (α : Type) where
  | create (params : SessionCreateParams α)
  | retrieve (id : String)
deriving DecidableEq

structure HTTPException where
  status : Nat
  detail : String
deriving DecidableEq

structure CheckoutResponse where
  checkout_url : Option String
  redirect_url : Option String
  currency : String
  amount_product_cents : Int
  amount_service_fee_cents : Int
  amount_total_cents : Int
deriving DecidableEq

/-- Floor of a rational, computed on the normalised representation; the
denominator is positive and integer division rounds toward negative
infinity, so this is the floor. -/
def ratFloor (x : Rat) : Int := x.num / (x.den : Int)

/-- Python `round()` applied to an exact value: round half to even, as in
`int(round(body.product_price * 100))`.  Prices are modelled as rationals;
for prices such as `35.00` whose binary floating-point image is exact this
agrees with the Python computation. -/
def pyRound (x : Rat) : Int :=
  let n : Int := ratFloor x
  let frac : Rat := x - n
  if frac < 1/2 then n
  else if 1/2 < frac then n + 1
  else if n % 2 = 0 then n else n + 1

lemma pyRound_int (n : Int) : pyRound (n : Rat) = n := by
  have hnum : ((n : Rat)).num = n := Rat.intCast_num n
  have hden : ((n : Rat)).den = 1 := Rat.intCast_den n
  have hfloor : ratFloor (n : Rat) = n := by
    rw [ratFloor, hnum, hden]
    simp
  rw [pyRound, hfloor]
  norm_num

lemma pyRound_3500 : pyRound ((35 : Rat) * 100) = 3500 := by
  have h : ((35 : Rat) * 100) = ((3500 : Int) : Rat) := by norm_num
  rw [h, pyRound_int]

/-- `body.service_fee_cents is not None and body.service_fee_cents < 0`. -/
def feeOverrideNegative (o : Option Int) : Bool :=
  match o with
  | some f => decide (f < 0)
  | none => false

lemma feeOverrideNegative_eq_false {o : Option Int}
    (h : ∀ f, o = some f → 0 ≤ f) : feeOverrideNegative o = false := by
  cases o with
  | none => rfl
  | some f =>
    simp only [feeOverrideNegative, decide_eq_false_iff_not, not_lt]
    exact h f rfl

/-! ### Checkout Request Handler, src/app/main.py lines 102-168 -/

/-- Request body of `POST /create_checkout` in `src/app/main.py`.  Pydantic
constraints (`gt=0` on price and quantity) appear as hypotheses of the
theorems that need them; the price is a rational standing for the exact
value of the float field. -/
structure CreateCheckoutBody where
  product_name : String
  product_price : Rat
  currency : String
  quantity : Int
  service_fee_cents : Option Int
  success_url : Option PyUrl
  cancel_url : Option PyUrl
  locale : Option String

/-- The tail of `create_checkout` after `stripe.checkout.Session.create`
returns: the missing-URL guard (`if not getattr(session, "url", None)`)
raises 500, and `HTTPException` is not a `stripe.error.StripeError`, so the
surrounding `except` clause does not catch it. -/
def create_checkout_result (currency : String) (products_total fee_cents : Int)
    (res : Except String StripeSession) : Except HTTPException CheckoutResponse :=
  match res with
  | Except.error e => Except.error ⟨400, "Stripe error: " ++ e⟩
  | Except.ok session =>
    if session.url.getD "" = "" then
      Except.error ⟨500, "Stripe did not return a checkout URL"⟩
    else
      Except.ok {
        checkout_url := session.url,
        redirect_url := some ("https://gift-genius-autocheckout.onrender.com/r/" ++ session.id),
        currency := currency,
        amount_product_cents := products_total,
        amount_service_fee_cents := fee_cents,
        amount_total_cents := products_total + fee_cents }

structure Config where
  serviceFeeCents : Int
  defaultSuccessUrl : PyUrl
  defaultCancelUrl : PyUrl

/-- `SERVICE_FEE_CENTS if body.service_fee_cents is None else body.service_fee_cents`. -/
def resolvedFee (dflt : Int) (o : Option Int) : Int :=
  match o with
  | none => dflt
  | some f => f

/-- The redirect URLs of src/app/main.py lines 116-120: server defaults,
then the session-id placeholder and status markers merged in through
`add_params`. -/
def appSuccessUrl (cfg : Config) (body : CreateCheckoutBody) : PyUrl :=
  add_params (body.success_url.getD cfg.defaultSuccessUrl)
    [("session_id", some "\x7bCHECKOUT_SESSION_ID\x7d"), ("status", some "success")]

def appCancelUrl (cfg : Config) (body : CreateCheckoutBody) : PyUrl :=
  add_params (body.cancel_url.getD cfg.defaultCancelUrl) [("status", some "cancel")]

/-- The `stripe.checkout.Session.create` arguments of src/app/main.py lines
122-147: the product line item, the fixed-name service-fee line item,
the composed redirect URLs and the locale. -/
def checkoutParams (cfg : Config) (body : CreateCheckoutBody) :
    SessionCreateParams PyUrl :=
  { line_items := [
      { currency := body.currency, name := body.product_name,
        unit_amount := pyRound (body.product_price * 100),
        quantity := body.quantity },
      { currency := body.currency, name := "Gift Genius Service Fee",
        unit_amount := resolvedFee cfg.serviceFeeCents body.service_fee_cents,
        quantity := 1 } ],
    success_url := appSuccessUrl cfg body,
    cancel_url := appCancelUrl cfg body,
    locale := body.locale }

def create_checkout (cfg : Config)
    (sessionCreate : SessionCreateParams PyUrl → Except String StripeSession)
    (body : CreateCheckoutBody) :
    Except HTTPException CheckoutResponse × List (StripeCall PyUrl) :=
  if feeOverrideNegative body.service_fee_cents then
    (Except.error ⟨400, "service_fee_cents must be >= 0"⟩, [])
  else
    (create_checkout_result body.currency
        (pyRound (body.product_price * 100) * body.quantity)
        (resolvedFee cfg.serviceFeeCents body.service_fee_cents)
        (sessionCreate (checkoutParams cfg body)),
      [StripeCall.create (checkoutParams cfg body)])

/-! ### Checkout Request Handler, src/main.py lines 41-64 -/

/-- Request body of `POST /create_checkout` in `src/main.py`: this revision
has mandatory string redirect URLs (defaulted by pydantic). -/
structure CreateCheckoutBodyV2 where
  product_name : String
  product_price : Rat
  currency : String
  service_fee_cents : Option Int
  quantity : Int
  success_url : String
  cancel_url : String
  locale : Option String

/-- src/main.py line 56: the success URL is built by plain concatenation. -/
def v2SuccessUrl (success_url : String) : String := success_url ++ "?status=success"

/-- src/main.py line 57: the cancel URL is built by plain concatenation. -/
def v2CancelUrl (cancel_url : String) : String := cancel_url ++ "?status=cancel"

/-- The tail of the `src/main.py` `create_checkout`: no missing-URL guard,
the session URL is passed through however it comes back. -/
def create_checkout_v2_result (currency : String) (products_total fee_cents : Int)
    (res : Except String StripeSession) : Except HTTPException CheckoutResponse :=
  match res with
  | Except.error e => Except.error ⟨400, "Stripe error: " ++ e⟩
  | Except.ok session =>
    Except.ok {
      checkout_url := session.url,
      redirect_url := none,
      currency := currency,
      amount_product_cents := products_total,
      amount_service_fee_cents := fee_cents,
      amount_total_cents := products_total + fee_cents }

/-- The `stripe.checkout.Session.create` arguments of src/main.py lines
50-60, with the concatenated redirect URLs. -/
def checkoutParamsV2 (defaultServiceFeeCents : Int) (body : CreateCheckoutBodyV2) :
    SessionCreateParams String :=
  { line_items := [
      { currency := body.currency, name := body.product_name,
        unit_amount := pyRound (body.product_price * 100),
        quantity := body.quantity },
      { currency := body.currency, name := "Gift Genius Service Fee",
        unit_amount := resolvedFee defaultServiceFeeCents body.service_fee_cents,
        quantity := 1 } ],
    success_url := v2SuccessUrl body.success_url,
    cancel_url := v2CancelUrl body.cancel_url,
    locale := body.locale }

def create_checkout_v2 (defaultServiceFeeCents : Int)
    (sessionCreate : SessionCreateParams String → Except String StripeSession)
    (body : CreateCheckoutBodyV2) :
    Except HTTPException CheckoutResponse × List (StripeCall String) :=
  if resolvedFee defaultServiceFeeCents body.service_fee_cents < 0 then
    (Except.error ⟨400, "service_fee_cents must be >= 0"⟩, [])
  else
    (create_checkout_v2_result body.currency
        (pyRound (body.product_price * 100) * body.quantity)
        (resolvedFee defaultServiceFeeCents body.service_fee_cents)
        (sessionCreate (checkoutParamsV2 defaultServiceFeeCents body)),
      [StripeCall.create (checkoutParamsV2 defaultServiceFeeCents body)])

/-! ### Redirect Handler, src/app/main.py lines 173-186 -/

def redirect_to_stripe
    (sessionRetrieve : String → Except String StripeSession)
    (session_id : String) :
    Except HTTPException (String × Nat) × List (StripeCall PyUrl) :=
  if sessionIdMatch session_id = false then
    (Except.error ⟨400, "Invalid checkout session id format."⟩, [])
  else
    match sessionRetrieve session_id with
    | Except.error e =>
      (Except.error ⟨400, "Stripe error: " ++ e⟩, [StripeCall.retrieve session_id])
    | Except.ok sess =>
      if sess.url.getD "" = "" then
        (Except.error ⟨404, "Checkout session has no URL"⟩, [StripeCall.retrieve session_id])
      else
        (Except.ok (sess.url.getD "", 302), [StripeCall.retrieve session_id])

/-! ### Confirmation Page Renderer, src/app/main.py lines 191-258

The page is modelled by its three data-dependent pieces: the optional
receipt-email line, the line-item rows, and the optional total line.
Everything else in the rendered HTML is constant boilerplate. -/

def htmlEscapeChar (c : Char) : List Char :=
  if c = '&' then ("&amp;").data
  else if c = '<' then ("&lt;").data
  else if c = '>' then ("&gt;").data
  else if c = Char.ofNat 34 then ("&quot;").data
  else if c = Char.ofNat 39 then ("&#x27;").data
  else [c]

/-- `html.escape` with its default `quote=True`. -/
def htmlEscape (s : String) : String :=
  String.mk (s.data.map htmlEscapeChar).flatten

structure LineItemDetails where
  description : Option String
  quantity : Option Int
  price_unit_amount : Option Int
deriving DecidableEq

structure SessionDetails where
  amount_total : Option Int
  currency : Option String
  customer_email : Option String
  line_items : List LineItemDetails
deriving DecidableEq

/-- The data-dependent pieces of the thanks page.  `email_line` is the
escaped receipt email when one is rendered, `items_rows` the rendered table
rows as (escaped name, quantity, unit amount in cents), `total_line` the
total in cents with its display currency when rendered. -/
structure ThanksRender where
  email_line : Option String
  items_rows : List (String × Int × Int)
  total_line : Option (Int × String)
deriving DecidableEq

def genericThanks : ThanksRender :=
  { email_line := none, items_rows := [], total_line := none }

/-- The guard of the thanks handler:
`not session_id or "CHECKOUT_SESSION_ID" in session_id or lbrace in
session_id or rbrace in session_id` (an absent or empty query parameter is
falsy). -/
def thanks_invalid (session_id : Option String) : Bool :=
  match session_id with
  | none => true
  | some s =>
    (s == "") || strContains ("CHECKOUT_SESSION_ID").data s.data ||
    s.data.contains lbrace || s.data.contains rbrace

/-- One table row: `li.get("description") or "Item"` (an empty description
is falsy), quantity defaulted to 1, unit amount defaulted to 0. -/
def renderRow (li : LineItemDetails) : String × Int × Int :=
  (htmlEscape (match li.description with
    | some d => if d = "" then "Item" else d
    | none => "Item"),
   li.quantity.getD 1,
   li.price_unit_amount.getD 0)

def thanks
    (sessionRetrieve : String → Except String SessionDetails)
    (session_id : Option String) (status : Option String) :
    ThanksRender × List (StripeCall PyUrl) :=
  if thanks_invalid session_id then (genericThanks, [])
  else
    match session_id with
    | none => (genericThanks, [])
    | some s =>
      match sessionRetrieve s with
      | Except.error _ => (genericThanks, [StripeCall.retrieve s])
      | Except.ok sess =>
        let amount_total : Int := sess.amount_total.getD 0
        let currency : String := (sess.currency.getD "eur").toUpper
        let rows := sess.line_items.map renderRow
        ({ email_line :=
             match sess.customer_email with
             | some e => if e = "" then none else some (htmlEscape e)
             | none => none,
           items_rows := rows,
           total_line :=
             if amount_total = 0 then none else some (amount_total, currency) },
         [StripeCall.retrieve s])

/-! ### Webhook Handler, src/app/main.py lines 288-305 and src/main.py
lines 68-80 (both revisions are identical)

`stripe.Webhook.construct_event` is the verification oracle; a configured
secret is the non-empty result of `os.getenv("STRIPE_WEBHOOK_SECRET", "").strip()`. -/

structure WebhookAck where
  received : Bool
  warning : Option String
deriving DecidableEq

structure StripeEvent where
  type : String
deriving DecidableEq

structure VerifyCall where
  payload : String
  sig_header : String
  secret : String
deriving DecidableEq

def stripe_webhook (secret : String)
    (construct_event : String → String → String → Except String StripeEvent)
    (payload sig_header : String) :
    Except HTTPException WebhookAck × List VerifyCall :=
  if secret = "" then
    (Except.ok ⟨true, some "No STRIPE_WEBHOOK_SECRET set"⟩, [])
  else
    match construct_event payload sig_header secret with
    | Except.error e =>
      (Except.error ⟨400, "Webhook signature verification failed: " ++ e⟩,
        [⟨payload, sig_header, secret⟩])
    | Except.ok _ =>
      (Except.ok ⟨true, none⟩, [⟨payload, sig_header, secret⟩])

/-! ### String-level query extraction

Used to state what `urlparse` and `parse_qsl` would recover from the URL
strings that `src/main.py` builds by concatenation.  `stringQuery` is the
text after the first question mark (the query component of a URL with no
fragment), and `simpleParseQsl` is `parse_qsl` on such text restricted to
inputs without percent-escapes or plus signs: split on ampersands, split
each chunk at its first equals sign, and drop chunks with no equals sign or
an empty value. -/

def questionMark : Char := Char.ofNat 63

def stringQuery (s : String) : List Char :=
  (s.data.dropWhile (fun c => !(c == questionMark))).drop 1

def simpleParseQsl (q : List Char) : List (List Char × List Char) :=
  (q.splitOn '&').filterMap (fun nv =>
    let name := nv.takeWhile (fun c => !(c == '='))
    match nv.dropWhile (fun c => !(c == '=')) with
    | [] => none
    | _ :: value => if value = [] then none else some (name, value))

example :
    simpleParseQsl (stringQuery "https://x.com/a?b=1") = [("b".data, "1".data)] := by
  decide

/-! ### Claim C1 -/

/-- C1 counterexample.  The claim says the validator accepts exactly the
strings of the form `cs_test_`/`cs_live_` plus at least 24 alphanumerics and
rejects any string containing a control character.  The compiled pattern
ends in `$`, and Python `$` also matches just before a trailing newline, so
the validator accepts a well-formed id followed by a line feed: a string
that is not of the stated form and contains a control character. -/
theorem session_id_accepts_trailing_newline :
    sessionIdMatch "cs_test_aaaaaaaaaaaaaaaaaaaaaaaa\n" = true ∧
    specSessionIdForm "cs_test_aaaaaaaaaaaaaaaaaaaaaaaa\n" = false ∧
    ("cs_test_aaaaaaaaaaaaaaaaaaaaaaaa\n".data.any
      (fun c => decide (c.toNat < 32))) = true := by
  decide

/-- C1 (amended).  The Session-ID Validator accepts a string exactly when it
is `cs_test_` or `cs_live_` followed by at least 24 ASCII alphanumeric
characters and then either nothing or one single trailing line feed.
Consequently it rejects the empty string, ids missing the prefix, ids with a
body shorter than 24 characters, and any string containing a brace; but a
single trailing newline — a control character — is tolerated. -/
theorem session_id_match_characterization (s : String) :
    sessionIdMatch s = true ↔
      ∃ pre bd tl, (pre = ("cs_test_").data ∨ pre = ("cs_live_").data) ∧
        s.data = pre ++ bd ++ tl ∧ 24 ≤ bd.length ∧
        (∀ c ∈ bd, isAlnumAscii c = true) ∧ (tl = [] ∨ tl = [newlineChar]) := by
  constructor
  · intro h
    rw [sessionIdMatch, Bool.and_eq_true, Bool.or_eq_true, Bool.and_eq_true,
      Bool.or_eq_true] at h
    obtain ⟨hpre, hlen, htl⟩ := h
    rw [decide_eq_true_eq] at hlen
    have hdecomp : ∃ pre, (pre = ("cs_test_").data ∨ pre = ("cs_live_").data) ∧
        ∃ r, s.data = pre ++ r := by
      rcases hpre with hp | hp
      · exact ⟨_, Or.inl rfl, (strPrefixOf_iff _ _).mp hp⟩
      · exact ⟨_, Or.inr rfl, (strPrefixOf_iff _ _).mp hp⟩
    obtain ⟨pre, hpre8, r, hr⟩ := hdecomp
    have hlen8 : pre.length = 8 := by
      rcases hpre8 with rfl | rfl <;> rfl
    have hdrop : s.data.drop 8 = r := by
      rw [hr, ← hlen8, List.drop_left]
    refine ⟨pre, r.takeWhile isAlnumAscii, r.dropWhile isAlnumAscii, hpre8, ?_, ?_, ?_, ?_⟩
    · rw [hr, List.append_assoc, List.takeWhile_append_dropWhile]
    · rw [← hdrop]
      exact hlen
    · exact all_takeWhile r
    · rcases htl with h | h
      · rw [decide_eq_true_eq] at h
        rw [← hdrop]
        exact Or.inl h
      · rw [decide_eq_true_eq] at h
        rw [← hdrop]
        exact Or.inr h
  · rintro ⟨pre, bd, tl, hpre8, hs, hlen, hall, htl⟩
    have hlen8 : pre.length = 8 := by
      rcases hpre8 with rfl | rfl <;> rfl
    have hdrop : s.data.drop 8 = bd ++ tl := by
      rw [hs, List.append_assoc, ← hlen8, List.drop_left]
    have htake : (bd ++ tl).takeWhile isAlnumAscii = bd := by
      rw [takeWhile_append_all bd tl hall]
      rcases htl with rfl | rfl
      · simp
      · have : [newlineChar].takeWhile isAlnumAscii = [] := by decide
        rw [this, List.append_nil]
    have hdropw : (bd ++ tl).dropWhile isAlnumAscii = tl := by
      rw [dropWhile_append_all bd tl hall]
      rcases htl with rfl | rfl
      · rfl
      · decide
    rw [sessionIdMatch, Bool.and_eq_true, Bool.or_eq_true, Bool.and_eq_true,
      Bool.or_eq_true]
    refine ⟨?_, ?_, ?_⟩
    · rcases hpre8 with rfl | rfl
      · exact Or.inl (by rw [hs, List.append_assoc]; exact strPrefixOf_self_append _ _)
      · exact Or.inr (by rw [hs, List.append_assoc]; exact strPrefixOf_self_append _ _)
    · rw [decide_eq_true_eq, hdrop, htake]
      exact hlen
    · rcases htl with rfl | rfl
      · exact Or.inl (by rw [decide_eq_true_eq, hdrop, hdropw])
      · exact Or.inr (by rw [decide_eq_true_eq, hdrop, hdropw])

/-! ### Claims C3 and C10 -/

/-- A concrete base URL with one pre-existing query parameter. -/
def demoBaseUrl : PyUrl := ⟨"https", "x.com", "/a", "", [("b", "1")], ""⟩

/-- A concrete base URL whose only query parameter has an empty value,
as in the URL string `https://x.com/a?b=`. -/
def blankParamUrl : PyUrl := ⟨"https", "x.com", "/a", "", [("b", "")], ""⟩

/-- C3 counterexample.  The claim says the result query contains every
pre-existing parameter of the base URL.  `parse_qsl` with its default
`keep_blank_values=False` silently drops a pre-existing parameter whose
value is empty: merging `status=cancel` into `https://x.com/a?b=` loses the
parameter `b` entirely. -/
theorem add_params_drops_blank_valued_param :
    (add_params blankParamUrl [("status", some "cancel")]).query =
      [("status", "cancel")] ∧
    "b" ∉ ((add_params blankParamUrl [("status", some "cancel")]).query.map Prod.fst) := by
  decide

/-- C3 (amended).  `add_params` keeps the scheme, host and path unchanged;
the result query has no duplicate names; it contains every entry of the
parameter mapping that sets a value; and it contains every pre-existing
parameter whose value is non-empty and whose name the mapping does not set.
Pre-existing parameters with empty values are dropped by `parse_qsl`.
The hypotheses say the mapping (Python keyword arguments) and the base
query have no duplicate names. -/
theorem add_params_merge_spec (u : PyUrl) (ps : List (String × Option String))
    (hps : (ps.map Prod.fst).Nodup) (hu : (u.query.map Prod.fst).Nodup) :
    (add_params u ps).scheme = u.scheme ∧
    (add_params u ps).netloc = u.netloc ∧
    (add_params u ps).path = u.path ∧
    ((add_params u ps).query.map Prod.fst).Nodup ∧
    (∀ k v, (k, some v) ∈ ps → (k, v) ∈ (add_params u ps).query) ∧
    (∀ k v, (k, v) ∈ u.query → v ≠ "" → (∀ w, (k, some w) ∉ ps) →
      (k, v) ∈ (add_params u ps).query) := by
  refine ⟨rfl, rfl, rfl, add_params_keys_nodup u ps, ?_, ?_⟩
  · intro k v h
    exact add_params_mem_set hps h
  · intro k v hmem hv hset
    exact add_params_mem_preserved hu hv hmem hset

theorem add_params_merge_spec_witness :
    ((add_params demoBaseUrl [("status", some "cancel")]).query =
      [("b", "1"), ("status", "cancel")]) ∧
    ("status", "cancel") ∈ (add_params demoBaseUrl [("status", some "cancel")]).query ∧
    ("b", "1") ∈ (add_params demoBaseUrl [("status", some "cancel")]).query := by
  have h := add_params_merge_spec demoBaseUrl [("status", some "cancel")]
    (by decide) (by decide)
  refine ⟨by decide, h.2.2.2.2.1 "status" "cancel" (by decide), ?_⟩
  refine h.2.2.2.2.2 "b" "1" (by decide) (by decide) ?_
  intro w hw
  simp only [List.mem_singleton, Prod.mk.injEq] at hw
  exact absurd hw.1 (by decide)

/-- C10 counterexample.  Applying the same mapping twice is not always the
identity on the first result: a mapping that sets `k` to the empty string
and `z` to `9` produces query `k=&z=9` on the first application, but on the
second application `parse_qsl` drops `k=` before `k` is re-added at the end,
giving `z=9&k=`. -/
theorem add_params_not_idempotent_blank_value :
    add_params (add_params ⟨"https", "x.com", "/a", "", [], ""⟩
        [("k", some ""), ("z", some "9")]) [("k", some ""), ("z", some "9")] ≠
      add_params ⟨"https", "x.com", "/a", "", [], ""⟩
        [("k", some ""), ("z", some "9")] := by
  decide

/-- C10 (amended).  `add_params` is idempotent for every parameter mapping
whose set values are all non-empty strings (the mapping, being Python
keyword arguments, has no duplicate names).  A mapping that sets some
parameter to the empty string can break idempotence, because `parse_qsl`
drops empty-valued parameters on re-parsing and re-adding them changes
their position. -/
theorem add_params_idempotent_nonblank (u : PyUrl) (ps : List (String × Option String))
    (hps : (ps.map Prod.fst).Nodup)
    (hnb : ∀ k v, (k, some v) ∈ ps → v ≠ "") :
    add_params (add_params u ps) ps = add_params u ps := by
  have hq1nodup : ((add_params u ps).query.map Prod.fst).Nodup :=
    add_params_keys_nodup u ps
  have hvals : ∀ p ∈ (add_params u ps).query, p.2 ≠ "" := by
    intro p hp
    rw [add_params_query] at hp
    rcases applyParams_mem_elim hp with hp2 | ⟨k, v, rfl, hkv⟩
    · exact (parse_qsl_mem (pyDict_mem hp2)).2
    · exact hnb k v hkv
  have hmemset : ∀ k v, (k, some v) ∈ ps → (k, v) ∈ (add_params u ps).query :=
    fun k v h => add_params_mem_set hps h
  show ({ add_params u ps with
    query := applyParams (pyDict (parse_qsl (add_params u ps).query)) ps } : PyUrl) =
    add_params u ps
  rw [parse_qsl_eq_self hvals, pyDict_eq_self hq1nodup,
    applyParams_eq_self hq1nodup hmemset]

theorem add_params_idempotent_nonblank_witness :
    add_params (add_params demoBaseUrl [("status", some "cancel")])
        [("status", some "cancel")] =
      add_params demoBaseUrl [("status", some "cancel")] := by
  refine add_params_idempotent_nonblank demoBaseUrl [("status", some "cancel")]
    (by decide) ?_
  intro k v h
  simp only [List.mem_singleton, Prod.mk.injEq, Option.some.injEq] at h
  obtain ⟨rfl, rfl⟩ := h
  decide

/-! ### Checkout handler lemmas -/

lemma create_checkout_result_ok {cur : String} {pt fee : Int}
    {res : Except String StripeSession} {r : CheckoutResponse}
    (h : create_checkout_result cur pt fee res = Except.ok r) :
    r.amount_product_cents = pt ∧ r.amount_service_fee_cents = fee ∧
    r.amount_total_cents = pt + fee ∧ r.currency = cur ∧
    ∃ u, r.checkout_url = some u ∧ u ≠ "" := by
  cases res with
  | error e => simp [create_checkout_result] at h
  | ok session =>
    rw [create_checkout_result] at h
    by_cases hu : session.url.getD "" = ""
    · rw [if_pos hu] at h
      simp at h
    · rw [if_neg hu] at h
      injection h with h
      subst h
      cases hsu : session.url with
      | none =>
        rw [hsu] at hu
        simp at hu
      | some u =>
        refine ⟨rfl, rfl, rfl, rfl, u, rfl, ?_⟩
        intro he
        rw [hsu, he] at hu
        simp at hu

lemma create_checkout_v2_result_ok {cur : String} {pt fee : Int}
    {res : Except String StripeSession} {r : CheckoutResponse}
    (h : create_checkout_v2_result cur pt fee res = Except.ok r) :
    r.amount_product_cents = pt ∧ r.amount_service_fee_cents = fee ∧
    r.amount_total_cents = pt + fee ∧ r.currency = cur := by
  cases res with
  | error e => simp [create_checkout_v2_result] at h
  | ok session =>
    rw [create_checkout_v2_result] at h
    injection h with h
    subst h
    exact ⟨rfl, rfl, rfl, rfl⟩

lemma create_checkout_fee_ok {cfg : Config}
    {sc : SessionCreateParams PyUrl → Except String StripeSession}
    {body : CreateCheckoutBody}
    (h : feeOverrideNegative body.service_fee_cents = false) :
    create_checkout cfg sc body =
      (create_checkout_result body.currency
          (pyRound (body.product_price * 100) * body.quantity)
          (resolvedFee cfg.serviceFeeCents body.service_fee_cents)
          (sc (checkoutParams cfg body)),
        [StripeCall.create (checkoutParams cfg body)]) := by
  simp [create_checkout, h]

lemma create_checkout_fee_neg {cfg : Config}
    {sc : SessionCreateParams PyUrl → Except String StripeSession}
    {body : CreateCheckoutBody} {f : Int}
    (h : body.service_fee_cents = some f) (hf : f < 0) :
    create_checkout cfg sc body =
      (Except.error ⟨400, "service_fee_cents must be >= 0"⟩, []) := by
  have hneg : feeOverrideNegative body.service_fee_cents = true := by
    rw [h]
    simpa [feeOverrideNegative]
  simp [create_checkout, hneg]

lemma create_checkout_v2_fee_ok {dflt : Int}
    {sc : SessionCreateParams String → Except String StripeSession}
    {body : CreateCheckoutBodyV2}
    (h : ¬ resolvedFee dflt body.service_fee_cents < 0) :
    create_checkout_v2 dflt sc body =
      (create_checkout_v2_result body.currency
          (pyRound (body.product_price * 100) * body.quantity)
          (resolvedFee dflt body.service_fee_cents)
          (sc (checkoutParamsV2 dflt body)),
        [StripeCall.create (checkoutParamsV2 dflt body)]) := by
  simp [create_checkout_v2, h]

/-! ### Claim C2 -/

/-- C2.  In both revisions, every successful `create_checkout` response
carries `amount_product_cents = round(price * 100) * quantity`,
`amount_service_fee_cents` equal to the resolved fee (the caller override
when present, else the process-wide default), and `amount_total_cents`
equal to their sum. -/
theorem create_checkout_amount_fields :
    (∀ (cfg : Config)
        (sessionCreate : SessionCreateParams PyUrl → Except String StripeSession)
        (body : CreateCheckoutBody) (r : CheckoutResponse),
      (create_checkout cfg sessionCreate body).1 = Except.ok r →
      r.amount_product_cents = pyRound (body.product_price * 100) * body.quantity ∧
      r.amount_service_fee_cents = resolvedFee cfg.serviceFeeCents body.service_fee_cents ∧
      r.amount_total_cents = r.amount_product_cents + r.amount_service_fee_cents) ∧
    (∀ (dflt : Int)
        (sessionCreate : SessionCreateParams String → Except String StripeSession)
        (body : CreateCheckoutBodyV2) (r : CheckoutResponse),
      (create_checkout_v2 dflt sessionCreate body).1 = Except.ok r →
      r.amount_product_cents = pyRound (body.product_price * 100) * body.quantity ∧
      r.amount_service_fee_cents = resolvedFee dflt body.service_fee_cents ∧
      r.amount_total_cents = r.amount_product_cents + r.amount_service_fee_cents) := by
  constructor
  · intro cfg sc body r h
    by_cases hfee : feeOverrideNegative body.service_fee_cents = true
    · simp [create_checkout, hfee] at h
    · rw [Bool.not_eq_true] at hfee
      rw [create_checkout_fee_ok hfee] at h
      obtain ⟨h1, h2, h3, -⟩ := create_checkout_result_ok h
      exact ⟨h1, h2, by rw [h3, h1, h2]⟩
  · intro dflt sc body r h
    by_cases hfee : resolvedFee dflt body.service_fee_cents < 0
    · simp [create_checkout_v2, hfee] at h
    · rw [create_checkout_v2_fee_ok hfee] at h
      obtain ⟨h1, h2, h3, -⟩ := create_checkout_v2_result_ok h
      exact ⟨h1, h2, by rw [h3, h1, h2]⟩

def demoCfg : Config :=
  ⟨99, ⟨"https", "gift-genius-autocheckout.onrender.com", "/thanks", "", [], ""⟩,
    ⟨"https", "gift-genius-autocheckout.onrender.com", "/cancel", "", [], ""⟩⟩

def demoSession : StripeSession :=
  ⟨"cs_test_demo", some "https://checkout.stripe.com/c/pay/cs_test_demo", false⟩

def demoCreate : SessionCreateParams PyUrl → Except String StripeSession :=
  fun _ => Except.ok demoSession

def demoBody : CreateCheckoutBody :=
  ⟨"Gift Box", 35, "EUR", 1, none, none, none, none⟩

def demoResp : CheckoutResponse :=
  { checkout_url := some "https://checkout.stripe.com/c/pay/cs_test_demo",
    redirect_url := some "https://gift-genius-autocheckout.onrender.com/r/cs_test_demo",
    currency := "EUR",
    amount_product_cents := pyRound ((35 : Rat) * 100) * 1,
    amount_service_fee_cents := 99,
    amount_total_cents := pyRound ((35 : Rat) * 100) * 1 + 99 }

theorem create_checkout_amount_fields_witness :
    (create_checkout demoCfg demoCreate demoBody).1 = Except.ok demoResp ∧
    demoResp.amount_product_cents = 3500 ∧
    demoResp.amount_service_fee_cents = 99 ∧
    demoResp.amount_total_cents = 3599 := by
  have h0 : (create_checkout demoCfg demoCreate demoBody).1 = Except.ok demoResp := rfl
  have h := create_checkout_amount_fields.1 demoCfg demoCreate demoBody demoResp h0
  refine ⟨h0, ?_, ?_, ?_⟩
  · rw [h.1]
    show pyRound ((35 : Rat) * 100) * 1 = 3500
    rw [pyRound_3500]
    norm_num
  · exact h.2.1
  · rw [h.2.2, h.1]
    show pyRound ((35 : Rat) * 100) * 1 + 99 = 3599
    rw [pyRound_3500]
    norm_num

/-! ### Claim C5 -/

def demoBodyV2 : CreateCheckoutBodyV2 :=
  ⟨"Gift Box", 35, "EUR", none, 1, "https://chat.openai.com/", "https://chat.openai.com/", none⟩

/-- A provider session that came back without a hosted URL. -/
def noUrlSession : StripeSession := ⟨"cs_live_demo", none, true⟩

/-- The success response `src/main.py` produces for `noUrlSession`. -/
def v2NullResp : CheckoutResponse :=
  { checkout_url := none, redirect_url := none, currency := "EUR",
    amount_product_cents := pyRound ((35 : Rat) * 100) * 1,
    amount_service_fee_cents := 99,
    amount_total_cents := pyRound ((35 : Rat) * 100) * 1 + 99 }

/-- C5 counterexample.  The claim covers both revisions, but the
`src/main.py` revision has no missing-URL guard: when the provider call
succeeds with a session whose URL is absent, it returns a success response
whose `checkout_url` is null instead of responding with HTTP 500. -/
theorem v2_checkout_ok_with_null_url :
    (create_checkout_v2 99 (fun _ => Except.ok noUrlSession) demoBodyV2).1 =
      Except.ok v2NullResp ∧ v2NullResp.checkout_url = none := by
  exact ⟨rfl, rfl⟩

/-- C5 (amended).  In the `src/app/main.py` revision only: when the
provider call succeeds but the returned session has no hosted URL (absent
or empty, both falsy in Python), `create_checkout` responds with HTTP 500;
and no successful response of that revision ever carries a missing or empty
`checkout_url`.  The `src/main.py` revision lacks the guard. -/
theorem checkout_missing_url_is_500 :
    (∀ (cfg : Config)
        (sessionCreate : SessionCreateParams PyUrl → Except String StripeSession)
        (body : CreateCheckoutBody) (session : StripeSession),
      feeOverrideNegative body.service_fee_cents = false →
      sessionCreate (checkoutParams cfg body) = Except.ok session →
      (session.url = none ∨ session.url = some "") →
      (create_checkout cfg sessionCreate body).1 =
        Except.error ⟨500, "Stripe did not return a checkout URL"⟩) ∧
    (∀ (cfg : Config)
        (sessionCreate : SessionCreateParams PyUrl → Except String StripeSession)
        (body : CreateCheckoutBody) (r : CheckoutResponse),
      (create_checkout cfg sessionCreate body).1 = Except.ok r →
      ∃ u, r.checkout_url = some u ∧ u ≠ "") := by
  constructor
  · intro cfg sc body session hfee hsc hurl
    rw [create_checkout_fee_ok hfee]
    show create_checkout_result _ _ _ (sc (checkoutParams cfg body)) = _
    rw [hsc, create_checkout_result]
    have hu : session.url.getD "" = "" := by
      rcases hurl with h | h <;> simp [h]
    rw [if_pos hu]
  · intro cfg sc body r h
    by_cases hfee : feeOverrideNegative body.service_fee_cents = true
    · simp [create_checkout, hfee] at h
    · rw [Bool.not_eq_true] at hfee
      rw [create_checkout_fee_ok hfee] at h
      exact (create_checkout_result_ok h).2.2.2.2

theorem checkout_missing_url_is_500_witness :
    (create_checkout demoCfg (fun _ => Except.ok noUrlSession) demoBody).1 =
      Except.error ⟨500, "Stripe did not return a checkout URL"⟩ :=
  checkout_missing_url_is_500.1 demoCfg (fun _ => Except.ok noUrlSession) demoBody
    noUrlSession rfl rfl (Or.inl rfl)

/-! ### Claim C6 -/

/-- C6.  In both revisions a present negative `service_fee_cents` override
makes `create_checkout` fail with HTTP 400 while the provider call list
stays empty; and when the override is absent, any successful response
carries the process-wide default fee. -/
theorem negative_fee_rejected_no_call :
    (∀ (cfg : Config)
        (sessionCreate : SessionCreateParams PyUrl → Except String StripeSession)
        (body : CreateCheckoutBody) (f : Int),
      body.service_fee_cents = some f → f < 0 →
      create_checkout cfg sessionCreate body =
        (Except.error ⟨400, "service_fee_cents must be >= 0"⟩, [])) ∧
    (∀ (dflt : Int)
        (sessionCreate : SessionCreateParams String → Except String StripeSession)
        (body : CreateCheckoutBodyV2) (f : Int),
      body.service_fee_cents = some f → f < 0 →
      create_checkout_v2 dflt sessionCreate body =
        (Except.error ⟨400, "service_fee_cents must be >= 0"⟩, [])) ∧
    (∀ (cfg : Config)
        (sessionCreate : SessionCreateParams PyUrl → Except String StripeSession)
        (body : CreateCheckoutBody) (r : CheckoutResponse),
      body.service_fee_cents = none →
      (create_checkout cfg sessionCreate body).1 = Except.ok r →
      r.amount_service_fee_cents = cfg.serviceFeeCents) ∧
    (∀ (dflt : Int)
        (sessionCreate : SessionCreateParams String → Except String StripeSession)
        (body : CreateCheckoutBodyV2) (r : CheckoutResponse),
      body.service_fee_cents = none →
      (create_checkout_v2 dflt sessionCreate body).1 = Except.ok r →
      r.amount_service_fee_cents = dflt) := by
  refine ⟨?_, ?_, ?_, ?_⟩
  · intro cfg sc body f h hf
    exact create_checkout_fee_neg h hf
  · intro dflt sc body f h hf
    have : resolvedFee dflt body.service_fee_cents < 0 := by
      rw [h, resolvedFee]
      exact hf
    simp [create_checkout_v2, this]
  · intro cfg sc body r hnone h
    have hfee : feeOverrideNegative body.service_fee_cents = false := by
      rw [hnone]
      rfl
    rw [create_checkout_fee_ok hfee] at h
    have := (create_checkout_result_ok h).2.1
    rw [this, hnone, resolvedFee]
  · intro dflt sc body r hnone h
    by_cases hfee : resolvedFee dflt body.service_fee_cents < 0
    · simp [create_checkout_v2, hfee] at h
    · rw [create_checkout_v2_fee_ok hfee] at h
      have := (create_checkout_v2_result_ok h).2.1
      rw [this, hnone, resolvedFee]

def negFeeBody : CreateCheckoutBody :=
  ⟨"Gift Box", 35, "EUR", 1, some (-1), none, none, none⟩

def negFeeBodyV2 : CreateCheckoutBodyV2 :=
  ⟨"Gift Box", 35, "EUR", some (-1), 1, "https://chat.openai.com/",
    "https://chat.openai.com/", none⟩

theorem negative_fee_rejected_no_call_witness :
    create_checkout demoCfg demoCreate negFeeBody =
      (Except.error ⟨400, "service_fee_cents must be >= 0"⟩, []) ∧
    create_checkout_v2 99 (fun _ => Except.ok demoSession) negFeeBodyV2 =
      (Except.error ⟨400, "service_fee_cents must be >= 0"⟩, []) :=
  ⟨negative_fee_rejected_no_call.1 demoCfg demoCreate negFeeBody (-1) rfl
      (by norm_num),
    negative_fee_rejected_no_call.2.1 99 (fun _ => Except.ok demoSession)
      negFeeBodyV2 (-1) rfl (by norm_num)⟩

/-! ### Claim C4 -/

/-- C4 counterexample.  The claim says every revision builds the outbound
URLs through the URL Composer and therefore preserves pre-existing query
parameters.  `src/main.py` line 56 instead appends `?status=success` by
string concatenation; on a base URL that already has a query string the
result holds two question marks and re-parsing it no longer yields the
pre-existing parameter `b=1`. -/
theorem v2_success_url_breaks_existing_query :
    v2SuccessUrl "https://x.com/a?b=1" = "https://x.com/a?b=1?status=success" ∧
    ("b".data, "1".data) ∈ simpleParseQsl (stringQuery "https://x.com/a?b=1") ∧
    ("b".data, "1".data) ∉
      simpleParseQsl (stringQuery (v2SuccessUrl "https://x.com/a?b=1")) := by
  decide

/-- C4 (amended).  In the `src/app/main.py` revision only: whenever the fee
gate passes, the one provider call receives a success URL composed through
`add_params` from the caller-supplied (or default) base with the session-id
placeholder and the success status marker, and a cancel URL composed with
only the cancel status marker; such composition preserves every pre-existing
query parameter that has a non-empty value and is not overwritten.  The
`src/main.py` revision concatenates instead and corrupts bases that already
carry a query string. -/
theorem create_checkout_url_composition
    (cfg : Config)
    (sessionCreate : SessionCreateParams PyUrl → Except String StripeSession)
    (body : CreateCheckoutBody)
    (hfee : feeOverrideNegative body.service_fee_cents = false) :
    (create_checkout cfg sessionCreate body).2 =
      [StripeCall.create (checkoutParams cfg body)] ∧
    (checkoutParams cfg body).success_url =
      add_params (body.success_url.getD cfg.defaultSuccessUrl)
        [("session_id", some "\x7bCHECKOUT_SESSION_ID\x7d"), ("status", some "success")] ∧
    (checkoutParams cfg body).cancel_url =
      add_params (body.cancel_url.getD cfg.defaultCancelUrl) [("status", some "cancel")] ∧
    (∀ k v, (k, v) ∈ (body.success_url.getD cfg.defaultSuccessUrl).query →
      ((body.success_url.getD cfg.defaultSuccessUrl).query.map Prod.fst).Nodup →
      v ≠ "" → k ≠ "session_id" → k ≠ "status" →
      (k, v) ∈ (checkoutParams cfg body).success_url.query) ∧
    (∀ k v, (k, v) ∈ (body.cancel_url.getD cfg.defaultCancelUrl).query →
      ((body.cancel_url.getD cfg.defaultCancelUrl).query.map Prod.fst).Nodup →
      v ≠ "" → k ≠ "status" →
      (k, v) ∈ (checkoutParams cfg body).cancel_url.query) := by
  refine ⟨by rw [create_checkout_fee_ok hfee], rfl, rfl, ?_, ?_⟩
  · intro k v hmem hnd hv hk1 hk2
    show (k, v) ∈ (add_params (body.success_url.getD cfg.defaultSuccessUrl)
      [("session_id", some "\x7bCHECKOUT_SESSION_ID\x7d"),
        ("status", some "success")]).query
    refine add_params_mem_preserved hnd hv hmem ?_
    intro w hw
    simp only [List.mem_cons, List.mem_singleton, Prod.mk.injEq,
      List.not_mem_nil, or_false] at hw
    rcases hw with ⟨hk, -⟩ | ⟨hk, -⟩
    · exact hk1 hk
    · exact hk2 hk
  · intro k v hmem hnd hv hk1
    show (k, v) ∈ (add_params (body.cancel_url.getD cfg.defaultCancelUrl)
      [("status", some "cancel")]).query
    refine add_params_mem_preserved hnd hv hmem ?_
    intro w hw
    simp only [List.mem_singleton, Prod.mk.injEq] at hw
    exact hk1 hw.1

def urlBody : CreateCheckoutBody :=
  ⟨"Gift Box", 35, "EUR", 1, none, some demoBaseUrl, some demoBaseUrl, none⟩

theorem create_checkout_url_composition_witness :
    (create_checkout demoCfg demoCreate urlBody).2 =
      [StripeCall.create (checkoutParams demoCfg urlBody)] ∧
    ("b", "1") ∈ (checkoutParams demoCfg urlBody).success_url.query ∧
    (checkoutParams demoCfg urlBody).success_url.query =
      [("b", "1"), ("session_id", "\x7bCHECKOUT_SESSION_ID\x7d"),
        ("status", "success")] := by
  have h := create_checkout_url_composition demoCfg demoCreate urlBody rfl
  exact ⟨h.1,
    h.2.2.2.1 "b" "1" (by decide) (by decide) (by decide) (by decide) (by decide),
    by decide⟩

/-! ### Claim C7 -/

/-- C7.  `GET /r/\x7bsession_id\x7d` with an id rejected by the Session-ID
Validator responds HTTP 400 with an empty provider-call list; with an id
the validator accepts, the handler performs exactly the one retrieve call,
so the session is fetched only after the id passes the guard. -/
theorem redirect_guard_before_retrieve
    (sessionRetrieve : String → Except String StripeSession) (session_id : String) :
    (sessionIdMatch session_id = false →
      redirect_to_stripe sessionRetrieve session_id =
        (Except.error ⟨400, "Invalid checkout session id format."⟩, [])) ∧
    (sessionIdMatch session_id = true →
      (redirect_to_stripe sessionRetrieve session_id).2 =
        [StripeCall.retrieve session_id]) := by
  constructor
  · intro h
    simp [redirect_to_stripe, h]
  · intro h
    have hc : ¬ (sessionIdMatch session_id = false) := by
      rw [h]
      simp
    rw [redirect_to_stripe, if_neg hc]
    cases hr : sessionRetrieve session_id with
    | error e => rfl
    | ok sess =>
      by_cases hu : sess.url.getD "" = ""
      · simp [hu]
      · simp [hu]

def demoRetrieve : String → Except String StripeSession :=
  fun s => Except.ok ⟨s, some "https://checkout.stripe.com/c/pay/x", false⟩

def validId : String := "cs_test_aaaaaaaaaaaaaaaaaaaaaaaa"

theorem redirect_guard_before_retrieve_witness :
    redirect_to_stripe demoRetrieve "foo" =
      (Except.error ⟨400, "Invalid checkout session id format."⟩, []) ∧
    (redirect_to_stripe demoRetrieve validId).2 = [StripeCall.retrieve validId] :=
  ⟨(redirect_guard_before_retrieve demoRetrieve "foo").1 (by decide),
    (redirect_guard_before_retrieve demoRetrieve validId).2 (by decide)⟩

/-! ### Claim C8 -/

/-- C8.  `GET /thanks` with a session id that is missing, contains a brace
character, or contains the literal placeholder name CHECKOUT_SESSION_ID,
performs zero provider calls and renders the generic success page: no email
line, no line-item rows, no total line. -/
theorem thanks_placeholder_generic_no_call
    (sessionRetrieve : String → Except String SessionDetails)
    (session_id status : Option String)
    (h : session_id = none ∨ ∃ s, session_id = some s ∧
      (strContains ("CHECKOUT_SESSION_ID").data s.data = true ∨
        s.data.contains lbrace = true ∨ s.data.contains rbrace = true)) :
    thanks sessionRetrieve session_id status = (genericThanks, []) := by
  have hinv : thanks_invalid session_id = true := by
    rcases h with rfl | ⟨s, rfl, hs⟩
    · rfl
    · rw [thanks_invalid]
      rcases hs with hs | hs | hs
      · simp [hs]
      · have hm : lbrace ∈ s.data := by simpa using hs
        simp [hm]
      · have hm : rbrace ∈ s.data := by simpa using hs
        simp [hm]
  simp [thanks, hinv]

theorem thanks_placeholder_generic_no_call_witness :
    thanks (fun _ => Except.error "never called")
        (some "\x7bCHECKOUT_SESSION_ID\x7d") (some "success") =
      (genericThanks, []) :=
  thanks_placeholder_generic_no_call _ _ _
    (Or.inr ⟨"\x7bCHECKOUT_SESSION_ID\x7d", rfl, Or.inl (by decide)⟩)

/-! ### Claim C9 -/

/-- C9.  With no webhook signing secret configured (the stripped environment
value is empty), `POST /webhook` acknowledges unconditionally with the
warning flag: the result is the same for every payload and signature header,
and the verification-call list is empty, so no signature verification or
other payload-dependent action happens.  Both revisions share this handler
verbatim. -/
theorem webhook_no_secret_uniform_ack
    (construct_event : String → String → String → Except String StripeEvent)
    (payload1 sig1 payload2 sig2 : String) :
    stripe_webhook "" construct_event payload1 sig1 =
      (Except.ok ⟨true, some "No STRIPE_WEBHOOK_SECRET set"⟩, []) ∧
    stripe_webhook "" construct_event payload1 sig1 =
      stripe_webhook "" construct_event payload2 sig2 :=
  ⟨rfl, rfl⟩
